import Mathlib

/-!
Verification development for the stateful-agent runtime.

Shallow embedding of the storage gateway (`src/agent/db.py`), the core-memory
service (`src/agent/core_memory.py`), the cron engine (`src/agent/cron_jobs.py`,
`src/agent/cron_scheduler.py`) and the heartbeat routine (`src/agent/heartbeat.py`).
Database tables are modelled as Lean lists of typed rows; each Python function
that the claims touch becomes a pure Lean function over those rows.  JSONB
`metadata` is projected to the single key the code reads (`role_display`);
timestamps are integers (UTC instants) except in the heartbeat where the code
does float division, modelled with `ℚ`.
-/

namespace StatefulAgent

/-! ### Message rows as returned by the `SELECT` in `load_messages` (db.py)

A row of the `messages` table as fetched for one thread, ordered by `idx`
ascending (the `ORDER BY idx ASC` of the query); `role_display` is the
projection of the `role_display` key of `metadata`. -/

structure Msg where
  role : String
  content : String
  reasoning : Option String
  created_at : Int
  role_display : Option String
deriving DecidableEq

/-- Embeds the SQL row filter of `load_messages` (db.py lines 231-238):
keep rows whose role is not `tool` when `exclude_tool_messages`, and rows
whose `role_display` is absent or differs from `heartbeat` when
`exclude_heartbeat`. -/
def rowPasses (exclude_tool exclude_heartbeat : Bool) (m : Msg) : Bool :=
  (!exclude_tool || m.role != "tool") &&
  (!exclude_heartbeat ||
    (match m.role_display with
     | none => true
     | some s => s != "heartbeat"))

/-- Embeds the scan of db.py lines 267-272: `today_start` defaults to `len(out)`
and becomes the first position whose `created_at >= since`. -/
def todayStartIdx (since : Int) : List Msg → Nat
  | [] => 0
  | m :: ms => if since ≤ m.created_at then 0 else todayStartIdx since ms + 1

/-- Token-count fallback of `_trim_to_token_limit` (db.py line 297):
`len(text) // 4` — Python floor division. -/
def countTokensFallback (s : String) : Nat :=
  s.length / 4

/-- Text counted for one row in `_trim_to_token_limit` (db.py lines 302-304):
the content, with a `[Reasoning: ...]` block prefixed when `reasoning` is
truthy (non-`None`, non-empty). -/
def trimText (m : Msg) : String :=
  match m.reasoning with
  | some r => if r = "" then m.content else ("[Reasoning: " ++ r ++ "]\n\n") ++ m.content
  | none => m.content

/-- Loop of `_trim_to_token_limit` (db.py lines 299-311) over the reversed row
list: stop at the first row that would push the running total past
`maxTokens`, but never with an empty result. -/
def trimGo (maxTokens : Nat) : List Msg → Nat → List Msg → List Msg
  | [], _, result => result
  | m :: rest, total, result =>
    let tokens := countTokensFallback (trimText m)
    if maxTokens < total + tokens ∧ result ≠ [] then result
    else trimGo maxTokens rest (total + tokens) (m :: result)

/-- Embeds `_trim_to_token_limit(rows, max_tokens)` (db.py lines 286-311), in the
environment without a tokeniser (the fallback estimate). -/
def trimToTokenLimit (rows : List Msg) (maxTokens : Nat) : List Msg :=
  trimGo maxTokens rows.reverse 0 []

/-- Second definition for claim C9, following the words of the spec rather
than the code: the per-message estimate the spec describes, the ceiling `⌈chars/4⌉`. -/
def specCeilTokens (s : String) : Nat :=
  (s.length + 3) / 4

/-- Spec-side trim loop for claim C9: identical walk, but per-message counts
are the ceiling estimate `specCeilTokens` described by the spec. -/
def specCeilTrimGo (maxTokens : Nat) : List Msg → Nat → List Msg → List Msg
  | [], _, result => result
  | m :: rest, total, result =>
    let tokens := specCeilTokens (trimText m)
    if maxTokens < total + tokens ∧ result ≠ [] then result
    else specCeilTrimGo maxTokens rest (total + tokens) (m :: result)

/-- Spec-side trim for claim C9, built from `specCeilTrimGo`. -/
def specCeilTrimToTokenLimit (rows : List Msg) (maxTokens : Nat) : List Msg :=
  specCeilTrimGo maxTokens rows.reverse 0 []

/-- Window of `load_messages` (db.py lines 265-278): applied only when `limit`
or `since` is given; takes the suffix from
`min(today_start, max(0, len - limit))`. -/
def applyWindow (limit : Option Nat) (since : Option Int) (out : List Msg) : List Msg :=
  match limit, since with
  | none, none => out
  | _, _ =>
    out.drop (min
      (match since with
       | none => out.length
       | some s => todayStartIdx s out)
      (match limit with
       | none => out.length
       | some l => out.length - l))

/-- Embeds `load_messages` (db.py lines 201-283) on the fetched rows of one thread:
SQL row filter, then the window, then the token cap (`if max_tokens and
max_tokens > 0`). -/
def load_messages (rows : List Msg) (limit : Option Nat) (since : Option Int)
    (max_tokens : Option Nat) (exclude_tool exclude_heartbeat : Bool) : List Msg :=
  if 0 < max_tokens.getD 0 then
    trimToTokenLimit
      (applyWindow limit since (rows.filter (rowPasses exclude_tool exclude_heartbeat)))
      (max_tokens.getD 0)
  else applyWindow limit since (rows.filter (rowPasses exclude_tool exclude_heartbeat))

/-! ### The `messages` table and `append_messages` (db.py lines 366-414) -/

/-- A stored row of the `messages` table (all threads); `idx` is the SQL
`INTEGER` column, `role_display` projects the `role_display` key of
`metadata`. -/
structure StoredMsg where
  thread_id : String
  idx : Int
  role : String
  content : String
  reasoning : Option String
  created_at : Int
  role_display : Option String
deriving DecidableEq

/-- An element of the `messages` argument of `append_messages`: a
`(role, content, metadata_extra, reasoning)` tuple, with `metadata_extra`
projected to its `role_display` key. -/
structure InMsg where
  role : String
  content : String
  meta_role_display : Option String
  reasoning : Option String
deriving DecidableEq

/-- Rows of one thread, in table order. -/
def threadRows (table : List StoredMsg) (t : String) : List StoredMsg :=
  table.filter (fun r => r.thread_id == t)

/-- The `idx` values stored for one thread. -/
def threadIdxs (table : List StoredMsg) (t : String) : List Int :=
  (threadRows table t).map (fun r => r.idx)

/-- Embeds `COALESCE(MAX(idx), -1)` of the `next_idx` query in `append_messages`
(db.py line 390). -/
def maxIdx (table : List StoredMsg) (t : String) : Int :=
  (threadIdxs table t).foldl max (-1)

/-- One inserted row of `append_messages` (db.py lines 396-414): metadata picks
up `role_display = user_display_name` for user rows when the display name is
truthy; `created_at` takes the insert-time default `NOW()`. -/
def mkStoredRow (t : String) (n : Int) (now : Int) (udn : Option String)
    (m : InMsg) : StoredMsg :=
  { thread_id := t
    idx := n
    role := m.role
    content := m.content
    reasoning := m.reasoning
    created_at := now
    role_display :=
      match udn with
      | some d => if m.role = "user" ∧ d ≠ "" then some d else m.meta_role_display
      | none => m.meta_role_display }

/-- Insert loop of `append_messages`: successive `idx` values from `n`. -/
def assignRows (t : String) (udn : Option String) (now : Int) :
    Int → List InMsg → List StoredMsg
  | _, [] => []
  | n, m :: rest => mkStoredRow t n now udn m :: assignRows t udn now (n + 1) rest

/-- Embeds `append_messages(thread_id, messages, user_display_name)` (db.py lines
366-414): no-op on an empty list, otherwise insert rows with successive `idx`
values starting at `COALESCE(MAX(idx), -1) + 1`. -/
def append_messages (table : List StoredMsg) (t : String) (msgs : List InMsg)
    (udn : Option String) (now : Int) : List StoredMsg :=
  if msgs.isEmpty then table
  else table ++ assignRows t udn now (maxIdx table t + 1) msgs

/-! ### Core memory (core_memory.py) -/

/-- The editable block types (core_memory.py line 59). -/
def editableBlockTypes : List String := ["user", "identity", "ideaspace"]

/-- A live row of the `core_memory` table (`block_type` is its primary key). -/
structure LiveBlock where
  block_type : String
  content : String
  version : Nat
  updated_at : Int
deriving DecidableEq

/-- A row of `core_memory_history`; `id` is the `SERIAL` primary key. -/
structure HistRow where
  id : Nat
  block_type : String
  content : String
  version : Nat
  updated_at : Int
deriving DecidableEq

/-- State of the core-memory storage: live rows, history rows, and the next
fresh `SERIAL` id of `core_memory_history`. -/
structure CoreMem where
  live : List LiveBlock
  hist : List HistRow
  nextId : Nat
deriving DecidableEq

/-- Result of a block operation: the Python `(success, message)` pair together
with the storage state after the call. -/
structure BlockOpResult where
  ok : Bool
  msg : String
  state : CoreMem
deriving DecidableEq

/-- The `SELECT ... WHERE block_type = %s` read on `core_memory`. -/
def findLive (s : CoreMem) (t : String) : Option LiveBlock :=
  s.live.find? (fun b => b.block_type == t)

/-- Embeds `get_block(block_type)` (core_memory.py lines 48-51) for an editable type:
the content of the live row, or the empty string when the row is absent. (The
`system_instructions` entry of `get_all_blocks` is irrelevant here: every
caller in the claims has already checked the type is editable.) -/
def getBlockContent (s : CoreMem) (t : String) : String :=
  match findLive s t with
  | some b => b.content
  | none => ""

/-- The `INSERT ... ON CONFLICT (block_type) DO UPDATE` upsert of
`update_block` (core_memory.py lines 83-93). -/
def upsertLive (live : List LiveBlock) (t c : String) (v : Nat) (now : Int) :
    List LiveBlock :=
  if live.any (fun b => b.block_type == t) then
    live.map (fun b => if b.block_type == t then ⟨t, c, v, now⟩ else b)
  else live ++ [⟨t, c, v, now⟩]

/-- Embeds `update_block(block_type, content)` (core_memory.py lines 54-95): reject a
non-editable type; otherwise copy the current live row into history (when it
exists) and upsert the live row with a bumped version. -/
def update_block (s : CoreMem) (t c : String) (now : Int) : BlockOpResult :=
  if t ∈ editableBlockTypes then
    match findLive s t with
    | some b =>
      { ok := true
        msg := "Updated " ++ t ++ " (v" ++ toString (b.version + 1) ++ ")"
        state :=
          { live := upsertLive s.live t c (b.version + 1) now
            hist := ⟨s.nextId, t, b.content, b.version, b.updated_at⟩ :: s.hist
            nextId := s.nextId + 1 } }
    | none =>
      { ok := true
        msg := "Updated " ++ t ++ " (v1)"
        state := { s with live := upsertLive s.live t c 1 now } }
  else { ok := false, msg := "Invalid block_type: " ++ t, state := s }

/-- ASCII whitespace stripped by Python `str.strip()`: space, tab, newline,
carriage return, vertical tab, form feed. -/
def isPyWhitespace (c : Char) : Bool :=
  c == ' ' || c == '\t' || c == '\n' || c == '\r' || c == '\x0b' || c == '\x0c'

/-- Models Python `str.strip()` (no arguments): remove leading and trailing
whitespace characters. -/
def pyStrip (s : String) : String :=
  String.mk (((s.data.dropWhile isPyWhitespace).reverse.dropWhile isPyWhitespace).reverse)

/-- Embeds `append_to_block(block_type, addition)` (core_memory.py lines 98-108):
`new_content = (current + "\n\n" + addition).strip() if current else addition`,
then `update_block`. -/
def append_to_block (s : CoreMem) (t a : String) (now : Int) : BlockOpResult :=
  if t ∈ editableBlockTypes then
    update_block s t
      (if getBlockContent s t = "" then a
       else pyStrip (getBlockContent s t ++ "\n\n" ++ a)) now
  else { ok := false, msg := "Invalid block_type: " ++ t, state := s }

/-- The `SELECT ... ORDER BY id DESC LIMIT 1` of `rollback_block`
(core_memory.py lines 121-128): the history row of the block with the greatest
`id`. -/
def newestHist (hist : List HistRow) (t : String) : Option HistRow :=
  (hist.filter (fun r => r.block_type == t)).foldl
    (fun acc r =>
      match acc with
      | none => some r
      | some a => if a.id < r.id then some r else some a)
    none

/-- Embeds `rollback_block(block_type)` (core_memory.py lines 111-147): restore the
newest history row into the live row (the `UPDATE ... WHERE block_type` touches
only an existing live row) and delete that history row. -/
def rollback_block (s : CoreMem) (t : String) (now : Int) : BlockOpResult :=
  if t ∈ editableBlockTypes then
    match newestHist s.hist t with
    | none =>
      { ok := false
        msg := "No previous version of " ++ t ++ " to rollback to"
        state := s }
    | some r =>
      { ok := true
        msg := "Rolled back " ++ t ++ " to version " ++ toString r.version
        state :=
          { live := s.live.map (fun b =>
              if b.block_type == t then ⟨t, r.content, r.version, now⟩ else b)
            hist := s.hist.filter (fun h => h.id != r.id)
            nextId := s.nextId } }
  else { ok := false, msg := "Invalid block_type: " ++ t, state := s }

/-! ### Cron jobs (cron_jobs.py, cron_scheduler.py) -/

/-- A row of the `cron_jobs` table. -/
structure CronJob where
  id : Nat
  name : String
  description : Option String
  instructions : String
  timezone : String
  schedule_days : Option (List Nat)
  schedule_time : Option String
  run_date : Option String
  is_one_time : Bool
  status : String
  created_by : String
  created_at : Int
  updated_at : Int
  last_run_at : Option Int
  last_run_status : Option String
  last_run_error : Option String
  run_count : Nat
deriving DecidableEq

/-- Embeds `get_cron_job(job_id)` (cron_jobs.py lines 87-93). -/
def get_cron_job (jobs : List CronJob) (job_id : Nat) : Option CronJob :=
  jobs.find? (fun j => j.id == job_id)

/-- Embeds `record_run(job_id, status, error)` (cron_jobs.py lines 179-202): the
`UPDATE` overwrites `last_run_at/status/error` and adds 1 to `run_count` on
every row whose `id` matches (a no-op when the job is absent). -/
def record_run (jobs : List CronJob) (job_id : Nat) (status : String)
    (error : Option String) (now : Int) : List CronJob :=
  jobs.map (fun j =>
    if j.id == job_id then
      { j with
        last_run_at := some now
        last_run_status := some status
        last_run_error := error
        run_count := j.run_count + 1 }
    else j)

/-- The call `update_cron_job(job_id, status=...)` (cron_jobs.py lines
116-153) as used by the scheduler: `SET status = %s, updated_at = NOW()`. -/
def set_job_status (jobs : List CronJob) (job_id : Nat) (status : String)
    (now : Int) : List CronJob :=
  jobs.map (fun j =>
    if j.id == job_id then { j with status := status, updated_at := now } else j)

/-- Outcome of one trigger firing: the table afterwards, whether the turn
orchestrator (`graph.chat`) was invoked, and the sequence of `record_run`
calls made, as `(job_id, status)` pairs. -/
structure CronExecResult where
  jobs : List CronJob
  turn_invoked : Bool
  record_calls : List (Nat × String)
deriving DecidableEq

/-- Embeds `execute_cron_job(job_id)` together with `_run_cron_job_sync`
(cron_scheduler.py lines 137-211).  `turn_ok` is whether the synthetic turn
(the `chat` call) completes without exception.  Absent job: log and return —
no `record_run`.  Inactive job: `record_run(job_id, "skipped")` and return.
Active: run the turn; on success `record_run(job_id, "success")` and, for a
one-time job, set status `paused`; on exception `record_run(job_id, "error")`
with the exception text. -/
def execute_cron_job (jobs : List CronJob) (job_id : Nat) (turn_ok : Bool)
    (err_msg : String) (now : Int) : CronExecResult :=
  match get_cron_job jobs job_id with
  | none => { jobs := jobs, turn_invoked := false, record_calls := [] }
  | some job =>
    if job.status ≠ "active" then
      { jobs := record_run jobs job_id ("skipped") none now
        turn_invoked := false
        record_calls := [(job_id, "skipped")] }
    else if turn_ok then
      let jobs1 := record_run jobs job_id ("success") none now
      { jobs := if job.is_one_time then set_job_status jobs1 job_id ("paused") now else jobs1
        turn_invoked := true
        record_calls := [(job_id, "success")] }
    else
      { jobs := record_run jobs job_id ("error") (some err_msg) now
        turn_invoked := true
        record_calls := [(job_id, "error")] }

/-! ### Heartbeat (heartbeat.py) -/

/-- The keyword parameters accepted by `graph.chat` (graph.py lines 372-383):
everything after the `*` marker in its signature. -/
def chat_keyword_params : List String :=
  ["user_display_name", "config", "current_time", "user_id", "channel_type",
   "is_group_chat"]

/-- The keyword arguments `run_heartbeat` passes to `chat` (heartbeat.py lines
133-144). -/
def heartbeat_chat_kwargs : List String :=
  ["stored_message", "user_display_name", "config", "current_time", "user_id",
   "channel_type", "is_group_chat"]

/-- The stored-message selection of `run_heartbeat` (heartbeat.py line 130):
`None` for the first heartbeat of the day, the placeholder `"HEARTBEAT"`
afterwards. -/
def heartbeat_stored_message (today_count : Nat) : Option String :=
  if today_count = 0 then none else some ("HEARTBEAT")

/-- Observable outcome of `run_heartbeat`: the skip dictionary, or an
uncaught exception. -/
inductive HBOutcome where
  | skipped (reason : String) (elapsed_minutes : ℚ)
  | raised (error : String)
deriving DecidableEq

/-- The turn-invoking tail of `run_heartbeat` (heartbeat.py lines 114-145).
The `chat(...)` call passes the keyword argument `stored_message`
(`heartbeat_chat_kwargs`), which `graph.chat` does not accept
(`chat_keyword_params`), so Python raises `TypeError` while binding the
arguments — before the turn body runs and before anything is persisted.  The
message store is returned unchanged. -/
def heartbeat_turn (msgs : List StoredMsg) : HBOutcome × List StoredMsg :=
  (.raised ("TypeError: chat() got an unexpected keyword argument: stored_message"),
   msgs)

/-- Embeds `run_heartbeat` (heartbeat.py lines 83-145).  `window` is
`HEARTBEAT_SKIP_WINDOW_MINUTES` (env, default 5); `sentinel` is the activity
file: `none` when absent, `some none` when unreadable (the parse raises and
the code proceeds), `some (some ts)` when it holds timestamp `ts`.  When
`(now - ts) / 60 < window` the function returns the skip dictionary before
any storage access; otherwise it reaches the turn invocation. -/
def run_heartbeat (window : ℚ) (sentinel : Option (Option ℚ)) (now : ℚ)
    (msgs : List StoredMsg) : HBOutcome × List StoredMsg :=
  match sentinel with
  | some (some ts) =>
    if (now - ts) / 60 < window then
      (.skipped ("user_recently_active") ((now - ts) / 60), msgs)
    else heartbeat_turn msgs
  | some none => heartbeat_turn msgs
  | none => heartbeat_turn msgs

/-! ### Concrete sample inputs used by witnesses and counterexamples -/

/-- A five-character user message row (no reasoning). -/
def sampleTrimMsg : Msg :=
  { role := "user", content := "aaaaa", reasoning := none, created_at := 0,
    role_display := none }

/-- A user message row with the given creation instant. -/
def sampleChatMsg (c : Int) : Msg :=
  { role := "user", content := "hi", reasoning := none, created_at := c,
    role_display := none }

/-- A core-memory state whose `user` block holds `"x"` at version 1. -/
def sampleBlockState : CoreMem :=
  { live := [{ block_type := "user", content := "x", version := 1, updated_at := 0 }]
    hist := []
    nextId := 0 }

/-- A core-memory state with one live `user` block and one history row. -/
def sampleCoreMem : CoreMem :=
  { live := [{ block_type := "user", content := "hello", version := 3, updated_at := 10 }]
    hist := [{ id := 0, block_type := "user", content := "old", version := 2, updated_at := 5 }]
    nextId := 1 }

/-- An active one-time cron job that has never run. -/
def sampleOneTimeJob : CronJob :=
  { id := 1, name := "reminder", description := none, instructions := "ping"
    timezone := "America/New_York", schedule_days := none
    schedule_time := some ("7:00 PM"), run_date := some ("2026-02-25")
    is_one_time := true, status := "active", created_by := "user"
    created_at := 0, updated_at := 0, last_run_at := none
    last_run_status := none, last_run_error := none, run_count := 0 }

/-- The same job, paused. -/
def samplePausedJob : CronJob :=
  { sampleOneTimeJob with status := "paused" }

/-- A stored message row on the given thread with the given index. -/
def sampleStoredRow (t : String) (i : Int) : StoredMsg :=
  { thread_id := t, idx := i, role := "user", content := "m", reasoning := none,
    created_at := 0, role_display := none }

/-- An incoming message tuple for `append_messages`. -/
def sampleInMsg : InMsg :=
  { role := "user", content := "hello", meta_role_display := none, reasoning := none }

/-! ### Helper lemmas -/

/-- Lookup via `find?` commutes with a map that preserves the predicate. -/
theorem find?_map_pres {α : Type} (f : α → α) (p : α → Bool) (l : List α)
    (h : ∀ x, p (f x) = p x) : (l.map f).find? p = (l.find? p).map f := by
  induction l with
  | nil => rfl
  | cons x xs ih =>
    simp only [List.map_cons, List.find?]
    rw [h x]
    cases p x
    · exact ih
    · rfl

/-- Reading a job back after `record_run`: predictable field overwrite plus a
`run_count` bump. -/
theorem get_cron_job_record_run (jobs : List CronJob) (job_id : Nat)
    (status : String) (error : Option String) (now : Int) (j : CronJob)
    (h : get_cron_job jobs job_id = some j) :
    get_cron_job (record_run jobs job_id status error now) job_id =
      some { j with last_run_at := some now, last_run_status := some status,
                    last_run_error := error, run_count := j.run_count + 1 } := by
  unfold get_cron_job at h
  have hpj : (j.id == job_id) = true := by simpa using List.find?_some h
  unfold get_cron_job record_run
  rw [find?_map_pres _ _ _ (fun x => by by_cases hx : (x.id == job_id) = true <;> simp [hx]), h]
  simp only [Option.map_some']
  rw [if_pos hpj]

/-- Reading a job back after the status update made by the scheduler. -/
theorem get_cron_job_set_status (jobs : List CronJob) (job_id : Nat)
    (status : String) (now : Int) (j : CronJob)
    (h : get_cron_job jobs job_id = some j) :
    get_cron_job (set_job_status jobs job_id status now) job_id =
      some { j with status := status, updated_at := now } := by
  unfold get_cron_job at h
  have hpj : (j.id == job_id) = true := by simpa using List.find?_some h
  unfold get_cron_job set_job_status
  rw [find?_map_pres _ _ _ (fun x => by by_cases hx : (x.id == job_id) = true <;> simp [hx]), h]
  simp only [Option.map_some']
  rw [if_pos hpj]

/-! ### Claim theorems -/

/-- Claim C1 (code_bug evidence): `run_heartbeat` computes the placeholder
`"HEARTBEAT"` for a repeat heartbeat, but passes it to `graph.chat` through
the keyword argument `stored_message`, which is not among the keyword
parameters of `chat`; the call therefore raises `TypeError` on every non-skipped
heartbeat (here: sentinel file absent) and persists nothing, so the claimed
storage economy never happens. -/
theorem c1_heartbeat_kwarg_bug :
    "stored_message" ∈ heartbeat_chat_kwargs ∧
    "stored_message" ∉ chat_keyword_params ∧
    heartbeat_stored_message 1 = some ("HEARTBEAT") ∧
    run_heartbeat 5 none 1000 [] =
      (.raised ("TypeError: chat() got an unexpected keyword argument: stored_message"),
       []) :=
  ⟨by decide, by decide, rfl, rfl⟩

/-- Claim C6: when the activity sentinel holds a readable timestamp less than
the skip window (in minutes) before the current time, `run_heartbeat` returns
the skip dictionary with reason `"user_recently_active"` and the message store
is unchanged. -/
theorem c6_heartbeat_skip (window ts now : ℚ) (msgs : List StoredMsg)
    (h : (now - ts) / 60 < window) :
    run_heartbeat window (some (some ts)) now msgs =
      (.skipped ("user_recently_active") ((now - ts) / 60), msgs) := by
  rw [show run_heartbeat window (some (some ts)) now msgs =
        if (now - ts) / 60 < window then
          (.skipped ("user_recently_active") ((now - ts) / 60), msgs)
        else heartbeat_turn msgs from rfl,
      if_pos h]

/-- Witness for C6 at a concrete input: sentinel 60 seconds old, 5-minute
window. -/
theorem c6_heartbeat_skip_witness :
    run_heartbeat 5 (some (some 940)) 1000 [] =
      (.skipped ("user_recently_active") ((1000 - 940) / 60), []) :=
  c6_heartbeat_skip 5 940 1000 [] (by norm_num)

/-- Claim C10: `record_run` on an existing job always overwrites
`last_run_at`, `last_run_status`, `last_run_error` and adds exactly 1 to
`run_count`, whatever the recorded status is — `run_count` counts recorded
attempts, not successes. -/
theorem c10_record_run_counts_attempts (jobs : List CronJob) (job_id : Nat)
    (status : String) (error : Option String) (now : Int) (j : CronJob)
    (h : get_cron_job jobs job_id = some j) :
    get_cron_job (record_run jobs job_id status error now) job_id =
      some { j with last_run_at := some now, last_run_status := some status,
                    last_run_error := error, run_count := j.run_count + 1 } :=
  get_cron_job_record_run jobs job_id status error now j h

/-- Witness for C10 at a concrete input: a `"skipped"` record still bumps
`run_count` from 0 to 1. -/
theorem c10_record_run_counts_attempts_witness :
    get_cron_job (record_run [sampleOneTimeJob] 1 ("skipped") none 50) 1 =
      some { sampleOneTimeJob with
              last_run_at := some 50,
              last_run_status := some ("skipped"),
              last_run_error := none,
              run_count := sampleOneTimeJob.run_count + 1 } :=
  c10_record_run_counts_attempts [sampleOneTimeJob] 1 ("skipped") none 50
    sampleOneTimeJob rfl

/-- Claim C5: a one-time cron job that is `active` when its trigger fires and
whose synthetic turn completes without exception ends up with
`last_run_status = "success"`, `run_count` incremented by exactly 1, and
`status = "paused"`. -/
theorem c5_one_time_success (jobs : List CronJob) (job_id : Nat)
    (err_msg : String) (now : Int) (j : CronJob)
    (hfind : get_cron_job jobs job_id = some j)
    (hactive : j.status = "active") (hone : j.is_one_time = true) :
    ∃ j', get_cron_job (execute_cron_job jobs job_id true err_msg now).jobs job_id = some j' ∧
      j'.last_run_status = some ("success") ∧
      j'.run_count = j.run_count + 1 ∧
      j'.status = "paused" := by
  have h1 := get_cron_job_record_run jobs job_id ("success") none now j hfind
  have h2 := get_cron_job_set_status (record_run jobs job_id ("success") none now)
    job_id ("paused") now _ h1
  simp only [execute_cron_job, hfind]
  rw [if_neg (by simp [hactive])]
  rw [if_pos trivial]
  simp only [hone]
  rw [if_pos trivial]
  exact ⟨_, h2, rfl, rfl, rfl⟩

/-- Witness for C5 at a concrete input: the sample one-time job. -/
theorem c5_one_time_success_witness :
    ∃ j', get_cron_job (execute_cron_job [sampleOneTimeJob] 1 true ("") 9).jobs 1 = some j' ∧
      j'.last_run_status = some ("success") ∧
      j'.run_count = sampleOneTimeJob.run_count + 1 ∧
      j'.status = "paused" :=
  c5_one_time_success [sampleOneTimeJob] 1 ("") 9 sampleOneTimeJob rfl rfl rfl

/-- Counterexample for C7 as stated: when the fired job is absent from
storage (empty table, id 7), `execute_cron_job` makes no `record_run` call at
all — no `"skipped"` run is recorded — though it does return without invoking
the turn orchestrator. -/
theorem c7_counterexample :
    (execute_cron_job ([] : List CronJob) 7 true ("") 0).record_calls.contains
      (7, "skipped") = false ∧
    (execute_cron_job ([] : List CronJob) 7 true ("") 0).turn_invoked = false := by
  decide

/-- Claim C7 amended: on firing, the engine re-reads the job; if it is absent
it returns without any `record_run` call and without invoking the orchestrator,
and if it is present but not `active` it records exactly one `"skipped"` run
and returns without invoking the orchestrator. -/
theorem c7_fire_time_guard (jobs : List CronJob) (job_id : Nat)
    (turn_ok : Bool) (err_msg : String) (now : Int) :
    (get_cron_job jobs job_id = none →
      execute_cron_job jobs job_id turn_ok err_msg now =
        { jobs := jobs, turn_invoked := false, record_calls := [] }) ∧
    (∀ j, get_cron_job jobs job_id = some j → j.status ≠ "active" →
      execute_cron_job jobs job_id turn_ok err_msg now =
        { jobs := record_run jobs job_id ("skipped") none now
          turn_invoked := false
          record_calls := [(job_id, "skipped")] }) := by
  constructor
  · intro h
    unfold execute_cron_job
    rw [h]
  · intro j hj hs
    simp only [execute_cron_job, hj]
    rw [if_pos hs]

/-- Witness for the amended C7: the absent case at id 3 over an empty table,
and the inactive case for the sample paused job. -/
theorem c7_fire_time_guard_witness :
    execute_cron_job ([] : List CronJob) 3 true ("") 0 =
      { jobs := [], turn_invoked := false, record_calls := [] } ∧
    (execute_cron_job [samplePausedJob] 1 true ("") 0).record_calls =
      [(1, "skipped")] := by
  refine ⟨(c7_fire_time_guard [] 3 true ("") 0).1 rfl, ?_⟩
  have h := (c7_fire_time_guard [samplePausedJob] 1 true ("") 0).2 samplePausedJob
    rfl (by decide)
  rw [h]

/-- Counterexample for C8 as stated: with current content `"x"`, appending
`"a "` (trailing space) is not the same as updating to
`current + "\n\n" + addition`, because the code strips the concatenation
before storing it. -/
theorem c8_counterexample :
    append_to_block sampleBlockState ("user") ("a ") 7 ≠
      update_block sampleBlockState ("user") (("x") ++ "\n\n" ++ "a ") 7 := by
  decide

/-- Claim C8 amended: for an editable block whose live row is `b`,
`append_to_block(t, a)` equals `update_block(t, strip(c + "\n\n" + a))` when
the current content `c` is non-empty, and `update_block(t, a)` when `c` is
empty — the Python code strips the concatenation and special-cases an empty
current content. -/
theorem c8_append_equals_update (s : CoreMem) (b : LiveBlock) (t a : String)
    (now : Int) (ht : t ∈ editableBlockTypes) (hb : findLive s t = some b) :
    append_to_block s t a now =
      update_block s t
        (if b.content = "" then a else pyStrip (b.content ++ "\n\n" ++ a)) now := by
  unfold append_to_block
  rw [if_pos ht]
  simp only [getBlockContent, hb]

/-- Witness for the amended C8 at a concrete input. -/
theorem c8_append_equals_update_witness :
    append_to_block sampleBlockState ("user") ("a ") 7 =
      update_block sampleBlockState ("user")
        (if ("x" : String) = "" then ("a ")
         else pyStrip (("x" : String) ++ "\n\n" ++ "a ")) 7 :=
  c8_append_equals_update sampleBlockState ⟨"user", "x", 1, 0⟩ ("user") ("a ") 7
    (by decide) rfl

/-- Counterexample for C9 as stated: the fallback token count of
`_trim_to_token_limit` is floor division `len // 4`, not the ceiling the spec
describes — at a five-character text the code counts 1 token where the
ceiling is 2, and the two trims diverge on a concrete row list. -/
theorem c9_counterexample :
    countTokensFallback ("aaaaa") = 1 ∧
    specCeilTokens ("aaaaa") = 2 ∧
    countTokensFallback ("aaaaa") ≠ specCeilTokens ("aaaaa") ∧
    trimToTokenLimit [sampleTrimMsg, sampleTrimMsg] 2 =
      [sampleTrimMsg, sampleTrimMsg] ∧
    specCeilTrimToTokenLimit [sampleTrimMsg, sampleTrimMsg] 2 =
      [sampleTrimMsg] := by
  decide

/-- Claim C9 amended: with no tokeniser available, the per-message estimate
used by the token-budget trim is the floor `⌊chars/4⌋`; it coincides with the
ceiling `⌈chars/4⌉` of the spec exactly when the character count is a
multiple of 4. -/
theorem c9_fallback_floor (s : String) :
    countTokensFallback s = s.length / 4 ∧
    (countTokensFallback s = specCeilTokens s ↔ s.length % 4 = 0) := by
  refine ⟨rfl, ?_⟩
  unfold countTokensFallback specCeilTokens
  omega

/-- The max-id fold of `newestHist` keeps an accumulator whose id dominates
the remaining list. -/
theorem foldl_pick_const (l : List HistRow) (a : HistRow)
    (h : ∀ x ∈ l, x.id < a.id) :
    l.foldl (fun acc r =>
      match acc with
      | none => some r
      | some b => if b.id < r.id then some r else some b) (some a) = some a := by
  induction l generalizing a with
  | nil => rfl
  | cons x xs ih =>
    rw [List.foldl_cons]
    have hx : x.id < a.id := h x (by simp)
    have hred : (match some a with
        | none => some x
        | some b => if b.id < x.id then some x else some b) = some a := by
      show (if a.id < x.id then some x else some a) = some a
      rw [if_neg (by omega)]
    rw [hred]
    exact ih a (fun y hy => h y (by simp [hy]))

/-- Pushing a history row whose id is strictly larger than all existing ones
makes it the newest row of its block. -/
theorem newestHist_cons_newest (hist : List HistRow) (r : HistRow) (t : String)
    (hr : (r.block_type == t) = true)
    (h : ∀ x ∈ hist, x.id < r.id) :
    newestHist (r :: hist) t = some r := by
  unfold newestHist
  rw [List.filter_cons, if_pos hr, List.foldl_cons]
  exact foldl_pick_const _ r (fun x hx => h x (List.mem_of_mem_filter hx))

/-- Claim C4: for an editable block with live row `(c0, v0)` (and fresh
history ids), `update_block(t, c)` pushes one history row holding `(c0, v0)`
and a following `rollback_block(t)` restores the live row to exactly
`(c0, v0)` and deletes exactly that history row, leaving history as before. -/
theorem c4_update_rollback_roundtrip (s : CoreMem) (b : LiveBlock) (t c : String)
    (now1 now2 : Int)
    (ht : t ∈ editableBlockTypes)
    (hb : findLive s t = some b)
    (hfresh : ∀ r ∈ s.hist, r.id < s.nextId) :
    (update_block s t c now1).ok = true ∧
    (update_block s t c now1).state.hist =
      { id := s.nextId, block_type := t, content := b.content,
        version := b.version, updated_at := b.updated_at } :: s.hist ∧
    (rollback_block (update_block s t c now1).state t now2).ok = true ∧
    findLive (rollback_block (update_block s t c now1).state t now2).state t =
      some { block_type := t, content := b.content, version := b.version,
             updated_at := now2 } ∧
    (rollback_block (update_block s t c now1).state t now2).state.hist = s.hist := by
  have hb' : s.live.find? (fun x => x.block_type == t) = some b := hb
  have hbt : (b.block_type == t) = true := by simpa using List.find?_some hb'
  have hstep : update_block s t c now1 =
      { ok := true
        msg := "Updated " ++ t ++ " (v" ++ toString (b.version + 1) ++ ")"
        state :=
          { live := upsertLive s.live t c (b.version + 1) now1
            hist := { id := s.nextId, block_type := t, content := b.content,
                      version := b.version, updated_at := b.updated_at } :: s.hist
            nextId := s.nextId + 1 } } := by
    unfold update_block
    rw [if_pos ht]
    simp only [findLive, hb']
  have hany : s.live.any (fun x => x.block_type == t) = true := by
    rw [List.any_eq_true]
    exact ⟨b, List.mem_of_find?_eq_some hb', hbt⟩
  have hup : upsertLive s.live t c (b.version + 1) now1 =
      s.live.map (fun x => if x.block_type == t then
        ⟨t, c, b.version + 1, now1⟩ else x) := by
    unfold upsertLive
    rw [if_pos hany]
  have hnew : newestHist
      ({ id := s.nextId, block_type := t, content := b.content,
         version := b.version, updated_at := b.updated_at } :: s.hist) t =
      some { id := s.nextId, block_type := t, content := b.content,
             version := b.version, updated_at := b.updated_at } :=
    newestHist_cons_newest s.hist _ t (by simp) hfresh
  have hroll : rollback_block (update_block s t c now1).state t now2 =
      { ok := true
        msg := "Rolled back " ++ t ++ " to version " ++ toString b.version
        state :=
          { live := (update_block s t c now1).state.live.map (fun x =>
              if x.block_type == t then ⟨t, b.content, b.version, now2⟩ else x)
            hist := (update_block s t c now1).state.hist.filter
              (fun h => h.id != s.nextId)
            nextId := (update_block s t c now1).state.nextId } } := by
    unfold rollback_block
    rw [if_pos ht]
    rw [hstep]
    simp only [hnew]
  refine ⟨by rw [hstep], by rw [hstep], by rw [hroll], ?_, ?_⟩
  · rw [hroll, hstep]
    show ((upsertLive s.live t c (b.version + 1) now1).map (fun x =>
        if x.block_type == t then
          ({ block_type := t, content := b.content, version := b.version,
             updated_at := now2 } : LiveBlock)
        else x)).find? (fun x => x.block_type == t) =
      some { block_type := t, content := b.content, version := b.version,
             updated_at := now2 }
    rw [hup]
    rw [find?_map_pres _ _ _ (fun x => by
      by_cases hx : (x.block_type == t) = true
      · rw [if_pos hx]; simp [hx]
      · rw [if_neg hx])]
    rw [find?_map_pres _ _ _ (fun x => by
      by_cases hx : (x.block_type == t) = true
      · rw [if_pos hx]; simp [hx]
      · rw [if_neg hx])]
    rw [hb']
    simp only [Option.map_some']
    rw [if_pos hbt]
    rw [if_pos (by simp)]
  · rw [hroll, hstep]
    show List.filter (fun h => h.id != s.nextId)
        ({ id := s.nextId, block_type := t, content := b.content,
           version := b.version, updated_at := b.updated_at } :: s.hist) = s.hist
    rw [List.filter_cons, if_neg (by simp)]
    exact List.filter_eq_self.mpr (fun r hr => by
      have := hfresh r hr
      simp only [bne_iff_ne, ne_eq]
      omega)

/-- Witness for C4 at a concrete core-memory state. -/
theorem c4_update_rollback_roundtrip_witness :
    (update_block sampleCoreMem ("user") ("new") 20).ok = true ∧
    (update_block sampleCoreMem ("user") ("new") 20).state.hist =
      { id := 1, block_type := "user", content := "hello",
        version := 3, updated_at := 10 } :: sampleCoreMem.hist ∧
    (rollback_block (update_block sampleCoreMem ("user") ("new") 20).state
      ("user") 30).ok = true ∧
    findLive (rollback_block (update_block sampleCoreMem ("user") ("new") 20).state
      ("user") 30).state ("user") =
      some { block_type := "user", content := "hello", version := 3,
             updated_at := 30 } ∧
    (rollback_block (update_block sampleCoreMem ("user") ("new") 20).state
      ("user") 30).state.hist = sampleCoreMem.hist :=
  c4_update_rollback_roundtrip sampleCoreMem
    ⟨"user", "hello", 3, 10⟩ ("user") ("new") 20 30 (by decide) rfl (by decide)

/-- The today-start scan lands exactly at the boundary between the old
messages (all strictly before `since`) and the same-day suffix (all at or
after `since`). -/
theorem todayStartIdx_eq (since : Int) (out : List Msg) (n : Nat)
    (h1 : ∀ m ∈ out.take n, m.created_at < since)
    (h2 : ∀ m ∈ out.drop n, since ≤ m.created_at) :
    todayStartIdx since out = min n out.length := by
  induction out generalizing n with
  | nil => simp [todayStartIdx]
  | cons m ms ih =>
    cases n with
    | zero =>
      have hm : since ≤ m.created_at := h2 m (by simp)
      simp [todayStartIdx, hm]
    | succ k =>
      have hm : m.created_at < since := h1 m (by simp)
      have hnle : ¬ since ≤ m.created_at := by omega
      simp only [todayStartIdx, if_neg hnle]
      rw [ih k (fun x hx => h1 x (by simp [List.take_succ_cons, hx]))
            (fun x hx => h2 x (by simpa [List.drop_succ_cons] using hx))]
      simp [Nat.succ_min_succ]

/-- Claim C2: on a thread whose tool-filtered history has `N` messages of
which exactly the last `K` are at or after the midnight boundary `since`,
`load_messages` with a `limit` and `since` (token cap off) returns the suffix
starting at `min(N - K, N - limit)` — exactly `max(K, min(N, limit))`
messages, in stored order. -/
theorem c2_window_policy (rows : List Msg) (limit : Nat) (since : Int)
    (N K : Nat) (out : List Msg)
    (hout : out = rows.filter (rowPasses true false))
    (hN : out.length = N) (hK : K ≤ N)
    (hbefore : ∀ m ∈ out.take (N - K), m.created_at < since)
    (hafter : ∀ m ∈ out.drop (N - K), since ≤ m.created_at) :
    load_messages rows (some limit) (some since) none true false =
      out.drop (min (N - K) (N - limit)) ∧
    (load_messages rows (some limit) (some since) none true false).length =
      max K (min N limit) := by
  have hts : todayStartIdx since out = N - K := by
    rw [todayStartIdx_eq since out (N - K) hbefore hafter, hN]
    omega
  have hmain : load_messages rows (some limit) (some since) none true false =
      out.drop (min (N - K) (N - limit)) := by
    show (if 0 < (none : Option Nat).getD 0 then
        trimToTokenLimit
          (applyWindow (some limit) (some since) (rows.filter (rowPasses true false)))
          ((none : Option Nat).getD 0)
      else applyWindow (some limit) (some since) (rows.filter (rowPasses true false))) =
      out.drop (min (N - K) (N - limit))
    rw [if_neg (by simp)]
    rw [← hout]
    show out.drop (min (todayStartIdx since out) (out.length - limit)) =
      out.drop (min (N - K) (N - limit))
    rw [hts, hN]
  refine ⟨hmain, ?_⟩
  rw [hmain, List.length_drop, hN]
  omega

/-- Witness for C2 at a concrete input: three persisted messages, one of them
same-day, limit 1 — the window keeps exactly one message. -/
theorem c2_window_policy_witness :
    load_messages [sampleChatMsg (-5), sampleChatMsg (-4), sampleChatMsg 3]
        (some 1) (some 0) none true false =
      [sampleChatMsg (-5), sampleChatMsg (-4), sampleChatMsg 3].drop
        (min (3 - 1) (3 - 1)) ∧
    (load_messages [sampleChatMsg (-5), sampleChatMsg (-4), sampleChatMsg 3]
        (some 1) (some 0) none true false).length = max 1 (min 3 1) :=
  c2_window_policy [sampleChatMsg (-5), sampleChatMsg (-4), sampleChatMsg 3]
    1 0 3 1 [sampleChatMsg (-5), sampleChatMsg (-4), sampleChatMsg 3]
    (by decide) (by decide) (by decide) (by decide) (by decide)

/-- A `max`-fold is at least its initial value. -/
theorem foldl_max_init_le (l : List Int) (a : Int) : a ≤ l.foldl max a := by
  induction l generalizing a with
  | nil => simp
  | cons x xs ih => exact le_trans (le_max_left a x) (ih (max a x))

/-- A `max`-fold dominates every list element. -/
theorem foldl_max_mem_le (l : List Int) (a x : Int) (hx : x ∈ l) :
    x ≤ l.foldl max a := by
  induction l generalizing a with
  | nil => cases hx
  | cons y ys ih =>
    rw [List.foldl_cons]
    rcases List.mem_cons.mp hx with h | h
    · subst h
      exact le_trans (le_max_right a x) (foldl_max_init_le ys (max a x))
    · exact ih (max a y) h

/-- A `max`-fold stays below any bound dominating the initial value and all
elements. -/
theorem foldl_max_le_bound (l : List Int) (a b : Int) (ha : a ≤ b)
    (hl : ∀ x ∈ l, x ≤ b) : l.foldl max a ≤ b := by
  induction l generalizing a with
  | nil => simpa
  | cons y ys ih =>
    rw [List.foldl_cons]
    exact ih (max a y) (max_le ha (hl y (by simp))) (fun x hx => hl x (by simp [hx]))

/-- When the stored idx values of a thread are exactly `{0, …, N-1}`, the
`COALESCE(MAX(idx), -1)` read evaluates to `N - 1`. -/
theorem maxIdx_of_range (table : List StoredMsg) (t : String) (N : Nat)
    (hidx : ∀ i : Int, i ∈ threadIdxs table t ↔ 0 ≤ i ∧ i < (N : Int)) :
    maxIdx table t = (N : Int) - 1 := by
  unfold maxIdx
  rcases Nat.eq_zero_or_pos N with h0 | hpos
  · subst h0
    have hnil : threadIdxs table t = [] := by
      apply List.eq_nil_iff_forall_not_mem.mpr
      intro i hi
      have := (hidx i).mp hi
      omega
    rw [hnil]
    simp
  · apply le_antisymm
    · exact foldl_max_le_bound _ _ _ (by omega)
        (fun x hx => by have := (hidx x).mp hx; omega)
    · exact foldl_max_mem_le _ _ _ ((hidx ((N : Int) - 1)).mpr (by omega))

/-- Every row built by the insert loop belongs to the target thread. -/
theorem assignRows_filter_self (t : String) (udn : Option String) (now : Int)
    (msgs : List InMsg) (n : Int) :
    (assignRows t udn now n msgs).filter (fun r => r.thread_id == t) =
      assignRows t udn now n msgs := by
  induction msgs generalizing n with
  | nil => rfl
  | cons m rest ih =>
    simp only [assignRows, List.filter_cons]
    rw [if_pos (by simp [mkStoredRow])]
    rw [ih]

/-- The insert loop emits one row per input message. -/
theorem assignRows_length (t : String) (udn : Option String) (now : Int)
    (msgs : List InMsg) (n : Int) :
    (assignRows t udn now n msgs).length = msgs.length := by
  induction msgs generalizing n with
  | nil => rfl
  | cons m rest ih =>
    simp only [assignRows, List.length_cons, ih]

/-- The idx values emitted by the insert loop starting at `n` are exactly the
integer interval `[n, n + k)`. -/
theorem assignRows_idx_mem (t : String) (udn : Option String) (now : Int)
    (msgs : List InMsg) (n i : Int) :
    i ∈ (assignRows t udn now n msgs).map (fun r => r.idx) ↔
      n ≤ i ∧ i < n + msgs.length := by
  induction msgs generalizing n with
  | nil =>
    simp only [assignRows, List.map_nil, List.not_mem_nil, List.length_nil]
    constructor
    · intro h
      cases h
    · intro h
      omega
  | cons m rest ih =>
    simp only [assignRows, List.map_cons, List.mem_cons, List.length_cons]
    rw [ih (n + 1)]
    show i = (mkStoredRow t n now udn m).idx ∨ _ ↔ _
    have hidx : (mkStoredRow t n now udn m).idx = n := rfl
    rw [hidx]
    push_cast
    omega

/-- Claim C3: if the idx set of thread `t` is `{0, …, N-1}`, then a non-empty
`append_messages` appends its rows at the end with the successive idx values
`N, N+1, …`, the idx set becomes `{0, …, N+k-1}`, and the row count of the
thread grows by exactly `k`, the number of rows appended. -/
theorem c3_append_contiguity (table : List StoredMsg) (t : String)
    (msgs : List InMsg) (udn : Option String) (now : Int) (N : Nat)
    (hne : msgs ≠ [])
    (hidx : ∀ i : Int, i ∈ threadIdxs table t ↔ 0 ≤ i ∧ i < (N : Int)) :
    append_messages table t msgs udn now =
      table ++ assignRows t udn now (N : Int) msgs ∧
    (∀ i : Int, i ∈ threadIdxs (append_messages table t msgs udn now) t ↔
      0 ≤ i ∧ i < (N : Int) + msgs.length) ∧
    (threadRows (append_messages table t msgs udn now) t).length =
      (threadRows table t).length + msgs.length := by
  have hmax := maxIdx_of_range table t N hidx
  have happ : append_messages table t msgs udn now =
      table ++ assignRows t udn now (N : Int) msgs := by
    unfold append_messages
    rw [if_neg (by rw [List.isEmpty_iff]; exact hne)]
    rw [hmax]
    have harith : (N : Int) - 1 + 1 = (N : Int) := by ring
    rw [harith]
  refine ⟨happ, ?_, ?_⟩
  · intro i
    rw [happ]
    unfold threadIdxs threadRows
    rw [List.filter_append, List.map_append, List.mem_append,
        assignRows_filter_self]
    have h1 := hidx i
    unfold threadIdxs threadRows at h1
    rw [h1, assignRows_idx_mem]
    omega
  · rw [happ]
    unfold threadRows
    rw [List.filter_append, List.length_append, assignRows_filter_self,
        assignRows_length]

/-- Witness for C3 at a concrete input: a thread with rows at idx 0 and 1
(next to a row of another thread), appending one message lands at idx 2. -/
theorem c3_append_contiguity_witness :
    append_messages
        [sampleStoredRow ("main") 0, sampleStoredRow ("other") 0,
         sampleStoredRow ("main") 1] ("main") [sampleInMsg] none 9 =
      [sampleStoredRow ("main") 0, sampleStoredRow ("other") 0,
       sampleStoredRow ("main") 1] ++
        assignRows ("main") none 9 ((2 : Nat) : Int) [sampleInMsg] ∧
    (∀ i : Int, i ∈ threadIdxs
        (append_messages
          [sampleStoredRow ("main") 0, sampleStoredRow ("other") 0,
           sampleStoredRow ("main") 1] ("main") [sampleInMsg] none 9) ("main") ↔
      0 ≤ i ∧ i < ((2 : Nat) : Int) + [sampleInMsg].length) ∧
    (threadRows
        (append_messages
          [sampleStoredRow ("main") 0, sampleStoredRow ("other") 0,
           sampleStoredRow ("main") 1] ("main") [sampleInMsg] none 9) ("main")).length =
      (threadRows
        [sampleStoredRow ("main") 0, sampleStoredRow ("other") 0,
         sampleStoredRow ("main") 1] ("main")).length + [sampleInMsg].length :=
  c3_append_contiguity
    [sampleStoredRow ("main") 0, sampleStoredRow ("other") 0,
     sampleStoredRow ("main") 1] ("main") [sampleInMsg] none 9 2
    (by decide)
    (by
      intro i
      constructor
      · intro hi
        rcases List.mem_cons.mp hi with h | hi2
        · subst h; constructor <;> decide
        · rcases List.mem_cons.mp hi2 with h | hi3
          · subst h; constructor <;> decide
          · cases hi3
      · intro hi
        have h0 : i = 0 ∨ i = 1 := by omega
        rcases h0 with h | h <;> subst h <;> decide)

end StatefulAgent
